import Mathlib

set_option autoImplicit false

/-! Verification development for the BimShady floor-plan extraction and
reconstruction pipeline.  The Python sources (`src/ai/ai_v3.py`,
`src/genplan.py`) are shallowly embedded below: Python dicts parsed from
JSON become ordered association lists, IEEE doubles become exact
rationals, and fallible operations (Python exceptions) become `Option` /
`Except` values.  Each claim of the specification is then settled by a
theorem about these definitions. -/

namespace BimShady

/-- JSON-like values as produced by `json.loads` on a vision-model
response: null, booleans, numbers (modelled as exact rationals in place
of IEEE doubles; claims under scrutiny do not hinge on rounding),
strings, arrays, and objects (insertion-ordered key/value association
lists, mirroring Python dicts with unique keys). -/
inductive JVal where
  | null : JVal
  | bool : Bool → JVal
  | num : ℚ → JVal
  | str : String → JVal
  | arr : List JVal → JVal
  | obj : List (String × JVal) → JVal

/-- A Python dict parsed from a JSON object: ordered association list. -/
abbrev JObj := List (String × JVal)

/-- Python `d.get(key)` on a dict: first binding for `key`, if any
(keys of a parsed dict are unique, so first = only). -/
def pyLookup : JObj → String → Option JVal
  | [], _ => none
  | (k, v) :: rest, key => if k = key then some v else pyLookup rest key

/-- Python `d.get(key, default)`. -/
def getD (o : JObj) (key : String) (dflt : JVal) : JVal :=
  (pyLookup o key).getD dflt

/-- Whitespace characters recognised by Python `str.strip()` and the
regex class `\s` (ASCII fragment: space, tab, newline, carriage return,
vertical tab, form feed). -/
def pySpaceChar (c : Char) : Bool :=
  c = ' ' || c = '\t' || c = '\n' || c = '\r' || c = Char.ofNat 11 || c = Char.ofNat 12

/-- Python `str.strip()` on a character list. -/
def pyStripChars (l : List Char) : List Char :=
  ((l.dropWhile pySpaceChar).reverse.dropWhile pySpaceChar).reverse

/-- Numeric value of a list of decimal digit characters. -/
def digitsToNat (l : List Char) : Nat :=
  l.foldl (fun acc c => acc * 10 + (c.toNat - 48)) 0

/-- Model of Python `float(s)` on a string: optional surrounding
whitespace, an optional sign, a decimal mantissa with at least one
digit, and an optional exponent.  (The exotic forms `inf`, `nan` and
digit underscores accepted by CPython are not modelled; no claim
depends on them.)  Returns `none` where Python raises `ValueError`. -/
def parseFloatChars (l0 : List Char) : Option ℚ :=
  let l := pyStripChars l0
  let sl : ℚ × List Char :=
    match l with
    | '+' :: r => (1, r)
    | '-' :: r => (-1, r)
    | _ => (1, l)
  let ip := sl.2.takeWhile Char.isDigit
  let r2 := sl.2.dropWhile Char.isDigit
  let fr : List Char × List Char :=
    match r2 with
    | '.' :: r3 => (r3.takeWhile Char.isDigit, r3.dropWhile Char.isDigit)
    | _ => ([], r2)
  if ip.isEmpty && fr.1.isEmpty then none
  else
    let mant : ℚ := sl.1 * ((digitsToNat ip : ℚ) + (digitsToNat fr.1 : ℚ) / (10 ^ fr.1.length : ℚ))
    match fr.2 with
    | [] => some mant
    | e :: r5 =>
      if e = 'e' || e = 'E' then
        let er : Bool × List Char :=
          match r5 with
          | '+' :: r => (true, r)
          | '-' :: r => (false, r)
          | _ => (true, r5)
        let ed := er.2.takeWhile Char.isDigit
        let r7 := er.2.dropWhile Char.isDigit
        if ed.isEmpty || !r7.isEmpty then none
        else some (if er.1 then mant * 10 ^ digitsToNat ed else mant / 10 ^ digitsToNat ed)
      else none

/-- Model of Python `float(s)` for strings. -/
def parseFloatStr (s : String) : Option ℚ :=
  parseFloatChars s.data

/-- Model of the Python builtin `float(v)` on a JSON-parsed value:
numbers coerce to themselves, booleans to 0/1, strings parse as float
literals; `None`, lists and dicts raise `TypeError` (here: `none`). -/
def pyFloat : JVal → Option ℚ
  | .num q => some q
  | .bool b => some (if b then 1 else 0)
  | .str s => parseFloatStr s
  | _ => none

/-- ASCII model of Python `str.upper()` on one character. -/
def pyUpperChar (c : Char) : Char :=
  if 97 ≤ c.toNat && c.toNat ≤ 122 then Char.ofNat (c.toNat - 32) else c

/-- ASCII model of Python `str.upper()`. -/
def pyUpper (s : String) : String :=
  ⟨s.data.map pyUpperChar⟩

/-! Embedding of `validate_and_fix_structure` (src/ai/ai_v3.py, lines
203-249).  Python exceptions raised inside the function (`TypeError`
from iterating a non-iterable, `AttributeError` from calling `.get` on
a non-dict or `.upper()` on a non-string, `ValueError`/`TypeError`
from `float`) are modelled by `none`. -/

/-- The expression
`float(wall.get(key, \x7b\x7d).get('x', 0))` paired with the same for
`'y'`: returns the coerced pair, or `none` where Python raises
(`.get` on a non-dict value, or a non-coercible sub-field). -/
def getPoint (kvs : JObj) (key : String) : Option (ℚ × ℚ) :=
  match getD kvs key (.obj []) with
  | .obj p =>
    match pyFloat (getD p "x" (.num 0)), pyFloat (getD p "y" (.num 0)) with
    | some x, some y => some (x, y)
    | _, _ => none
  | _ => none

/-- Construction of one `validated_wall` dict from a wall entry that is
a dict, with `i` the 1-based enumeration index used for the fallback
`wall_<i>` identifier. -/
def buildWall (i : Nat) (kvs : JObj) : Option JVal :=
  match getPoint kvs "start_point", getPoint kvs "end_point" with
  | some sp, some ep =>
    some (.obj [("wall_id", getD kvs "wall_id" (.str ("wall_" ++ toString i))),
                ("start_point", .obj [("x", .num sp.1), ("y", .num sp.2)]),
                ("end_point", .obj [("x", .num ep.1), ("y", .num ep.2)])])
  | _, _ => none

/-- Construction of one `validated_room` dict from a room entry that is
a dict. -/
def buildRoom (kvs : JObj) : Option JVal :=
  match getD kvs "room_name" (.str "UNKNOWN"), getPoint kvs "center_point" with
  | .str s, some cp =>
    some (.obj [("room_name", .str (pyUpper s)),
                ("center_point", .obj [("x", .num cp.1), ("y", .num cp.2)])])
  | _, _ => none

/-- The wall loop `for i, wall in enumerate(data.get('walls', []), 1)`:
non-dict entries are skipped but still consume an enumeration index. -/
def validateWallEntries : Nat → List JVal → Option (List JVal)
  | _, [] => some []
  | i, .obj kvs :: rest =>
    match buildWall i kvs, validateWallEntries (i + 1) rest with
    | some w, some ws => some (w :: ws)
    | _, _ => none
  | i, _ :: rest => validateWallEntries (i + 1) rest

/-- The room loop: non-dict entries are skipped. -/
def validateRoomEntries : List JVal → Option (List JVal)
  | [] => some []
  | .obj kvs :: rest =>
    match buildRoom kvs, validateRoomEntries rest with
    | some r, some rs => some (r :: rs)
    | _, _ => none
  | _ :: rest => validateRoomEntries rest

/-- Python `for x in v`: lists yield their elements, strings their
characters (as one-character strings), dicts their keys; `None`,
booleans and numbers are not iterable and raise `TypeError`. -/
def iterTop : JVal → Option (List JVal)
  | .arr xs => some xs
  | .str s => some (s.data.map fun c => .str (String.singleton c))
  | .obj kvs => some (kvs.map fun p => .str p.1)
  | _ => none

/-- The in-place repair
`if 'walls' not in data: data['walls'] = []` (and likewise `'rooms'`):
a missing key is appended with an empty list value.  This mutates the
caller's dict; the function below returns the mutated dict alongside
the result. -/
def fixTopLevel (d : JObj) : JObj :=
  let d1 := if (pyLookup d "walls").isSome then d else d ++ [("walls", .arr [])]
  if (pyLookup d1 "rooms").isSome then d1 else d1 ++ [("rooms", .arr [])]

/-- Embedding of `validate_and_fix_structure(data)` for a dict input.
Returns `some (result, data_after_call)` where `data_after_call` is the
input dict as left by the call (it may have gained the two top-level
keys), or `none` where the Python function raises. -/
def validate_and_fix_structure (data : JObj) : Option (JVal × JObj) :=
  match iterTop (getD (fixTopLevel data) "walls" (.arr [])) with
  | none => none
  | some wallsIter =>
    match validateWallEntries 1 wallsIter with
    | none => none
    | some ws =>
      match iterTop (getD (fixTopLevel data) "rooms" (.arr [])) with
      | none => none
      | some roomsIter =>
        match validateRoomEntries roomsIter with
        | none => none
        | some rs =>
          some (.obj [("walls", .arr ws), ("rooms", .arr rs)], fixTopLevel data)

/-! Well-formedness of validator input: the exact conditions under which
the Python function finishes without raising. -/

/-- A point container under `key` is repairable: either absent (the
default empty dict kicks in) or a dict whose present `x`/`y` sub-fields
are float-coercible (absent sub-fields default to the coercible `0`). -/
def pointOk (kvs : JObj) (key : String) : Bool :=
  match getD kvs key (.obj []) with
  | .obj p => (pyFloat (getD p "x" (.num 0))).isSome && (pyFloat (getD p "y" (.num 0))).isSome
  | _ => false

/-- A wall entry survives the loop body: non-dict entries are skipped
(hence harmless), dict entries need repairable endpoint containers. -/
def wallEntryOk : JVal → Bool
  | .obj kvs => pointOk kvs "start_point" && pointOk kvs "end_point"
  | _ => true

/-- A room entry survives the loop body: dict entries need a
string-or-absent `room_name` and a repairable `center_point`. -/
def roomEntryOk : JVal → Bool
  | .obj kvs =>
    (match getD kvs "room_name" (.str "UNKNOWN") with
     | .str _ => true
     | _ => false) && pointOk kvs "center_point"
  | _ => true

/-- A top-level `walls`/`rooms` value can be looped over and all its
entries survive. -/
def seqOk (entryOk : JVal → Bool) (v : JVal) : Bool :=
  match iterTop v with
  | some l => l.all entryOk
  | none => false

/-- The validator input as a whole finishes without raising. -/
def wellFormedInput (d : JObj) : Bool :=
  seqOk wallEntryOk (getD (fixTopLevel d) "walls" (.arr [])) &&
    seqOk roomEntryOk (getD (fixTopLevel d) "rooms" (.arr []))

/-- Discriminator for dict entries (the records the loops keep). -/
def isObjEntry : JVal → Bool
  | .obj _ => true
  | _ => false

lemma getPoint_isSome (kvs : JObj) (key : String) :
    (getPoint kvs key).isSome = pointOk kvs key := by
  unfold getPoint pointOk
  cases getD kvs key (.obj []) <;> simp
  case obj p =>
    cases pyFloat (getD p "x" (.num 0)) <;> cases pyFloat (getD p "y" (.num 0)) <;> simp

lemma buildWall_isSome (i : Nat) (kvs : JObj) :
    (buildWall i kvs).isSome = wallEntryOk (.obj kvs) := by
  show (buildWall i kvs).isSome = (pointOk kvs "start_point" && pointOk kvs "end_point")
  unfold buildWall
  rw [← getPoint_isSome kvs "start_point", ← getPoint_isSome kvs "end_point"]
  cases getPoint kvs "start_point" <;> cases getPoint kvs "end_point" <;> simp

lemma buildRoom_isSome (kvs : JObj) :
    (buildRoom kvs).isSome = roomEntryOk (.obj kvs) := by
  show (buildRoom kvs).isSome
      = ((match getD kvs "room_name" (.str "UNKNOWN") with
          | .str _ => true
          | _ => false) && pointOk kvs "center_point")
  unfold buildRoom
  rw [← getPoint_isSome kvs "center_point"]
  cases getD kvs "room_name" (.str "UNKNOWN") <;>
    cases getPoint kvs "center_point" <;> simp

lemma validateWallEntries_isSome (l : List JVal) :
    ∀ i : Nat, (validateWallEntries i l).isSome = l.all wallEntryOk := by
  induction l with
  | nil => intro i; rfl
  | cons e rest ih =>
    intro i
    cases e with
    | obj kvs =>
      have hb := (buildWall_isSome i kvs).symm
      simp only [validateWallEntries, List.all_cons]
      cases hw : buildWall i kvs with
      | none =>
        rw [hw] at hb
        simp only [Option.isSome_none] at hb
        simp [hb]
      | some w =>
        rw [hw] at hb
        simp only [Option.isSome_some] at hb
        rw [hb, Bool.true_and, ← ih (i + 1)]
        cases validateWallEntries (i + 1) rest <;> simp
    | null => simp [validateWallEntries, ih (i + 1), wallEntryOk]
    | bool b => simp [validateWallEntries, ih (i + 1), wallEntryOk]
    | num q => simp [validateWallEntries, ih (i + 1), wallEntryOk]
    | str s => simp [validateWallEntries, ih (i + 1), wallEntryOk]
    | arr xs => simp [validateWallEntries, ih (i + 1), wallEntryOk]

lemma validateRoomEntries_isSome (l : List JVal) :
    (validateRoomEntries l).isSome = l.all roomEntryOk := by
  induction l with
  | nil => rfl
  | cons e rest ih =>
    cases e with
    | obj kvs =>
      have hb := (buildRoom_isSome kvs).symm
      simp only [validateRoomEntries, List.all_cons]
      cases hr : buildRoom kvs with
      | none =>
        rw [hr] at hb
        simp only [Option.isSome_none] at hb
        simp [hb]
      | some r =>
        rw [hr] at hb
        simp only [Option.isSome_some] at hb
        rw [hb, Bool.true_and, ← ih]
        cases validateRoomEntries rest <;> simp
    | null => simp [validateRoomEntries, ih, roomEntryOk]
    | bool b => simp [validateRoomEntries, ih, roomEntryOk]
    | num q => simp [validateRoomEntries, ih, roomEntryOk]
    | str s => simp [validateRoomEntries, ih, roomEntryOk]
    | arr xs => simp [validateRoomEntries, ih, roomEntryOk]

lemma validate_isSome (d : JObj) :
    (validate_and_fix_structure d).isSome = wellFormedInput d := by
  cases hw : iterTop (getD (fixTopLevel d) "walls" (.arr [])) with
  | none =>
    unfold validate_and_fix_structure wellFormedInput seqOk
    rw [hw]
    simp
  | some wl =>
    cases hv1 : validateWallEntries 1 wl with
    | none =>
      have h1 := (validateWallEntries_isSome wl 1).symm
      rw [hv1] at h1
      simp only [Option.isSome_none] at h1
      unfold validate_and_fix_structure wellFormedInput seqOk
      rw [hw]
      dsimp only
      rw [hv1]
      simp [h1]
    | some ws =>
      have h1 := (validateWallEntries_isSome wl 1).symm
      rw [hv1] at h1
      simp only [Option.isSome_some] at h1
      cases hr : iterTop (getD (fixTopLevel d) "rooms" (.arr [])) with
      | none =>
        unfold validate_and_fix_structure wellFormedInput seqOk
        rw [hw]
        dsimp only
        rw [hv1, hr]
        simp
      | some rl =>
        cases hv2 : validateRoomEntries rl with
        | none =>
          have h2 := (validateRoomEntries_isSome rl).symm
          rw [hv2] at h2
          simp only [Option.isSome_none] at h2
          unfold validate_and_fix_structure wellFormedInput seqOk
          rw [hw]
          dsimp only
          rw [hv1]
          dsimp only
          rw [hr]
          dsimp only
          rw [hv2]
          simp [h1, h2]
        | some rs =>
          have h2 := (validateRoomEntries_isSome rl).symm
          rw [hv2] at h2
          simp only [Option.isSome_some] at h2
          unfold validate_and_fix_structure wellFormedInput seqOk
          rw [hw]
          dsimp only
          rw [hv1]
          dsimp only
          rw [hr]
          dsimp only
          rw [hv2]
          simp [h1, h2]

lemma getPoint_missing (kvs : JObj) (key : String) (h : pyLookup kvs key = none) :
    getPoint kvs key = some (0, 0) := by
  unfold getPoint getD
  rw [h]
  rfl

lemma validateWallEntries_length (l : List JVal) :
    ∀ (i : Nat) (ws : List JVal),
      validateWallEntries i l = some ws → ws.length = l.countP isObjEntry := by
  induction l with
  | nil =>
    intro i ws h
    injection h with h
    rw [← h]
    rfl
  | cons e rest ih =>
    intro i ws h
    cases e with
    | obj kvs =>
      simp only [validateWallEntries] at h
      cases hw : buildWall i kvs with
      | none => rw [hw] at h; cases h
      | some w =>
        rw [hw] at h
        cases hv : validateWallEntries (i + 1) rest with
        | none => rw [hv] at h; cases h
        | some ws' =>
          rw [hv] at h
          cases h
          simp [List.countP_cons, isObjEntry, ih (i + 1) ws' hv]
    | null => simpa [validateWallEntries, List.countP_cons, isObjEntry] using ih (i + 1) ws h
    | bool b => simpa [validateWallEntries, List.countP_cons, isObjEntry] using ih (i + 1) ws h
    | num q => simpa [validateWallEntries, List.countP_cons, isObjEntry] using ih (i + 1) ws h
    | str s => simpa [validateWallEntries, List.countP_cons, isObjEntry] using ih (i + 1) ws h
    | arr xs => simpa [validateWallEntries, List.countP_cons, isObjEntry] using ih (i + 1) ws h

/-- C1 counterexample: the claim asserts validation never fails and that a
coordinate sub-field that cannot be coerced to a float is defaulted to 0.0;
on the parsed object with `walls = [ \x7b start_point: \x7b x: null \x7d \x7d ]`
the Python code evaluates `float(None)`, which raises `TypeError` (modelled:
`pyFloat JVal.null = none`), so validation raises instead of defaulting. -/
theorem validator_noncoercible_cex :
    validate_and_fix_structure
        [("walls", JVal.arr [JVal.obj [("start_point", JVal.obj [("x", JVal.null)])]])] = none
      ∧ pyFloat JVal.null = none :=
  ⟨rfl, rfl⟩

/-- C1 (amended): validation succeeds precisely on well-formed inputs
(every present coordinate sub-field coercible, point containers dicts
when present, walls/rooms values iterable, room names strings when
present); a missing point container yields the default coordinates
`(0, 0)`; and on success every dict record among the wall entries is
kept (the output length equals the number of dict entries — records are
never dropped).  Present non-coercible sub-fields make validation raise
rather than default, per the counterexample. -/
theorem validator_totality_iff_wellformed :
    (∀ d : JObj, (validate_and_fix_structure d).isSome = true ↔ wellFormedInput d = true)
    ∧ (∀ (kvs : JObj) (key : String),
        pyLookup kvs key = none → getPoint kvs key = some (0, 0))
    ∧ (∀ (l : List JVal) (i : Nat) (ws : List JVal),
        validateWallEntries i l = some ws → ws.length = l.countP isObjEntry) :=
  ⟨fun d => by rw [validate_isSome d],
   getPoint_missing,
   fun l i ws h => validateWallEntries_length l i ws h⟩

/-- Witness for C1: a concrete well-formed input (a wall entry with a
missing `end_point` and a missing `x`) validates successfully, and a
missing point container defaults to `(0, 0)`. -/
theorem validator_totality_witness :
    (validate_and_fix_structure
        [("walls", JVal.arr [JVal.obj [("start_point", JVal.obj [("y", JVal.num 3)])]])]).isSome
      = true
    ∧ getPoint [("wall_id", JVal.str "w1")] "start_point" = some (0, 0) :=
  ⟨(validator_totality_iff_wellformed.1 _).mpr rfl,
   validator_totality_iff_wellformed.2.1 [("wall_id", JVal.str "w1")] "start_point" rfl⟩

/-- C5 counterexample: on the parsed JSON object with `walls = 5` the
wall loop iterates over the integer `5`, which raises `TypeError`
(modelled: validation returns `none`), so there is no output at all. -/
theorem validator_nonsequence_walls_cex :
    validate_and_fix_structure [("walls", JVal.num 5)] = none := rfl

/-- C5 (amended): whenever the Validator returns a structure (it raises
on some inputs, e.g. a non-iterable `walls` value), that structure has
exactly the two keys `walls` and `rooms`, both bound to (possibly
empty) sequences; in particular the empty object validates
successfully. -/
theorem validator_output_shape :
    (∀ (d : JObj) (out : JVal) (st : JObj),
        validate_and_fix_structure d = some (out, st) →
          ∃ ws rs : List JVal, out = .obj [("walls", .arr ws), ("rooms", .arr rs)])
    ∧ (validate_and_fix_structure []).isSome = true := by
  constructor
  · intro d out st h
    unfold validate_and_fix_structure at h
    cases h1 : iterTop (getD (fixTopLevel d) "walls" (.arr [])) with
    | none => rw [h1] at h; cases h
    | some wl =>
      rw [h1] at h
      dsimp only at h
      cases h2 : validateWallEntries 1 wl with
      | none => rw [h2] at h; cases h
      | some ws =>
        rw [h2] at h
        dsimp only at h
        cases h3 : iterTop (getD (fixTopLevel d) "rooms" (.arr [])) with
        | none => rw [h3] at h; cases h
        | some rl =>
          rw [h3] at h
          dsimp only at h
          cases h4 : validateRoomEntries rl with
          | none => rw [h4] at h; cases h
          | some rs =>
            rw [h4] at h
            dsimp only at h
            cases h
            exact ⟨ws, rs, rfl⟩
  · rfl

/-- Witness for C5: applying the shape theorem to the concrete successful
run on the empty object. -/
theorem validator_output_shape_witness :
    (∃ ws rs : List JVal,
        JVal.obj [("walls", JVal.arr []), ("rooms", JVal.arr [])]
          = JVal.obj [("walls", JVal.arr ws), ("rooms", JVal.arr rs)])
    ∧ (validate_and_fix_structure []).isSome = true :=
  ⟨validator_output_shape.1 [] _ _ rfl, validator_output_shape.2⟩

/-! Mutation footprint of the validator (claim C9). -/

lemma pyLookup_append (a b : JObj) (k : String) :
    pyLookup (a ++ b) k
      = if (pyLookup a k).isSome then pyLookup a k else pyLookup b k := by
  induction a with
  | nil => simp [pyLookup]
  | cons p rest ih =>
    obtain ⟨k', v⟩ := p
    by_cases hk : k' = k
    · simp [pyLookup, hk]
    · simp [pyLookup, hk, ih]

lemma fixTopLevel_eq_self (d : JObj)
    (hw : (pyLookup d "walls").isSome = true)
    (hr : (pyLookup d "rooms").isSome = true) : fixTopLevel d = d := by
  unfold fixTopLevel
  rw [if_pos hw, if_pos hr]

lemma fixTopLevel_append (d : JObj) :
    ∃ ext : JObj, fixTopLevel d = d ++ ext
      ∧ ∀ p ∈ ext, (p.1 = "walls" ∨ p.1 = "rooms") ∧ p.2 = JVal.arr [] := by
  unfold fixTopLevel
  by_cases hw : (pyLookup d "walls").isSome = true
  · rw [if_pos hw]
    by_cases hr : (pyLookup d "rooms").isSome = true
    · rw [if_pos hr]
      exact ⟨[], by simp, by simp⟩
    · rw [if_neg hr]
      exact ⟨[("rooms", JVal.arr [])], rfl, by simp⟩
  · rw [if_neg hw]
    by_cases hr : (pyLookup (d ++ [("walls", JVal.arr [])]) "rooms").isSome = true
    · rw [if_pos hr]
      exact ⟨[("walls", JVal.arr [])], rfl, by simp⟩
    · rw [if_neg hr]
      exact ⟨[("walls", JVal.arr []), ("rooms", JVal.arr [])], by simp, by simp⟩

/-- On success, the result pair is the literal two-key structure and the
final state of the input dict is its top-level repair. -/
lemma validate_some_parts (d : JObj) (out : JVal) (st : JObj)
    (h : validate_and_fix_structure d = some (out, st)) :
    (∃ ws rs : List JVal, out = .obj [("walls", .arr ws), ("rooms", .arr rs)]
        ∧ validateWallEntries 1 ((iterTop (getD (fixTopLevel d) "walls" (.arr []))).getD [])
            = some ws
        ∧ validateRoomEntries ((iterTop (getD (fixTopLevel d) "rooms" (.arr []))).getD [])
            = some rs)
    ∧ st = fixTopLevel d := by
  unfold validate_and_fix_structure at h
  cases h1 : iterTop (getD (fixTopLevel d) "walls" (.arr [])) with
  | none => rw [h1] at h; cases h
  | some wl =>
    rw [h1] at h
    dsimp only at h
    cases h2 : validateWallEntries 1 wl with
    | none => rw [h2] at h; cases h
    | some ws =>
      rw [h2] at h
      dsimp only at h
      cases h3 : iterTop (getD (fixTopLevel d) "rooms" (.arr [])) with
      | none => rw [h3] at h; cases h
      | some rl =>
        rw [h3] at h
        dsimp only at h
        cases h4 : validateRoomEntries rl with
        | none => rw [h4] at h; cases h
        | some rs =>
          rw [h4] at h
          dsimp only at h
          cases h
          exact ⟨⟨ws, rs, rfl, h2, h4⟩, rfl⟩

/-- C9 counterexample: the claim says the Validator is side-effect free,
but on the empty input dict the call mutates its argument, inserting the
two top-level keys (the second component of the embedded result is the
input dict as left by the call). -/
theorem validator_mutates_input_cex :
    (validate_and_fix_structure []).map Prod.snd
        = some [("walls", JVal.arr []), ("rooms", JVal.arr [])]
      ∧ ([("walls", JVal.arr []), ("rooms", JVal.arr [])] : JObj) ≠ [] :=
  ⟨rfl, by simp⟩

/-- C9 (amended): the Validator's only side effect on its input is the
top-level repair — on a successful run the input dict is left equal to
itself plus (at most) appended `walls`/`rooms` keys bound to empty
lists; existing entries are never modified, and when both keys are
already present the input is left entirely unchanged. -/
theorem validator_mutation_bounded :
    ∀ (d : JObj) (out : JVal) (st : JObj),
      validate_and_fix_structure d = some (out, st) →
        (∃ ext : JObj, st = d ++ ext
            ∧ ∀ p ∈ ext, (p.1 = "walls" ∨ p.1 = "rooms") ∧ p.2 = JVal.arr [])
        ∧ ((pyLookup d "walls").isSome = true →
            (pyLookup d "rooms").isSome = true → st = d) := by
  intro d out st h
  have hst := (validate_some_parts d out st h).2
  subst hst
  exact ⟨fixTopLevel_append d, fun hw hr => fixTopLevel_eq_self d hw hr⟩

/-- Witness for C9: on an input that already has both keys, the call
leaves the input dict unchanged. -/
theorem validator_mutation_witness :
    (∃ ext : JObj,
        [("walls", JVal.arr []), ("rooms", JVal.arr [])]
          = [("walls", JVal.arr []), ("rooms", JVal.arr [])] ++ ext
        ∧ ∀ p ∈ ext, (p.1 = "walls" ∨ p.1 = "rooms") ∧ p.2 = JVal.arr [])
    ∧ ((pyLookup [("walls", JVal.arr []), ("rooms", JVal.arr [])] "walls").isSome = true →
        (pyLookup [("walls", JVal.arr []), ("rooms", JVal.arr [])] "rooms").isSome = true →
        ([("walls", JVal.arr []), ("rooms", JVal.arr [])] : JObj)
          = [("walls", JVal.arr []), ("rooms", JVal.arr [])]) :=
  validator_mutation_bounded [("walls", JVal.arr []), ("rooms", JVal.arr [])]
    (JVal.obj [("walls", JVal.arr []), ("rooms", JVal.arr [])])
    [("walls", JVal.arr []), ("rooms", JVal.arr [])] rfl

/-! Idempotence of the validator (claim C6). -/

lemma toNat_ofNat_small (n : Nat) (h : n < 55296) : (Char.ofNat n).toNat = n := by
  have hv : n.isValidChar := Or.inl h
  simp [Char.ofNat, hv, Char.ofNatAux, Char.toNat]
  rfl

lemma pyUpperChar_idem (c : Char) : pyUpperChar (pyUpperChar c) = pyUpperChar c := by
  unfold pyUpperChar
  by_cases h : (97 ≤ c.toNat && c.toNat ≤ 122) = true
  · rw [if_pos h]
    simp only [Bool.and_eq_true, decide_eq_true_eq] at h
    have hn : (Char.ofNat (c.toNat - 32)).toNat = c.toNat - 32 :=
      toNat_ofNat_small _ (by omega)
    have hc : (97 ≤ (Char.ofNat (c.toNat - 32)).toNat
        && (Char.ofNat (c.toNat - 32)).toNat ≤ 122) = false := by
      rw [hn]
      simp only [Bool.and_eq_false_iff, decide_eq_false_iff_not]
      left
      omega
    rw [if_neg (by rw [hc]; exact Bool.false_ne_true)]
  · rw [if_neg h, if_neg h]

lemma pyUpper_idem (s : String) : pyUpper (pyUpper s) = pyUpper s := by
  unfold pyUpper
  refine congrArg String.mk ?_
  show (s.data.map pyUpperChar).map pyUpperChar = s.data.map pyUpperChar
  rw [List.map_map]
  exact List.map_congr_left fun a _ => pyUpperChar_idem a

/-- Re-validating a validated wall reproduces it exactly, at any
enumeration index (the identifier key is now present, so the index is
unused). -/
lemma buildWall_reval (i : Nat) (kvs : JObj) (w : JVal)
    (h : buildWall i kvs = some w) :
    ∃ fs : JObj, w = .obj fs ∧ ∀ j : Nat, buildWall j fs = some w := by
  unfold buildWall at h
  cases hs : getPoint kvs "start_point" with
  | none => cases he : getPoint kvs "end_point" <;> (rw [hs, he] at h; cases h)
  | some sp =>
    cases he : getPoint kvs "end_point" with
    | none => rw [hs, he] at h; cases h
    | some ep =>
      rw [hs, he] at h
      cases h
      exact ⟨_, rfl, fun j => rfl⟩

/-- Re-validating a validated room reproduces it exactly. -/
lemma buildRoom_reval (kvs : JObj) (r : JVal)
    (h : buildRoom kvs = some r) :
    ∃ fs : JObj, r = .obj fs ∧ buildRoom fs = some r := by
  unfold buildRoom at h
  cases hn : getD kvs "room_name" (.str "UNKNOWN") with
  | str s =>
    cases hc : getPoint kvs "center_point" with
    | none => rw [hn, hc] at h; cases h
    | some cp =>
      rw [hn, hc] at h
      cases h
      refine ⟨_, rfl, ?_⟩
      have hb : buildRoom
          [("room_name", JVal.str (pyUpper s)),
           ("center_point", JVal.obj [("x", JVal.num cp.1), ("y", JVal.num cp.2)])]
          = some (JVal.obj
              [("room_name", JVal.str (pyUpper (pyUpper s))),
               ("center_point", JVal.obj [("x", JVal.num cp.1), ("y", JVal.num cp.2)])]) := rfl
      rw [hb, pyUpper_idem]
  | null => cases hc : getPoint kvs "center_point" <;> (rw [hn, hc] at h; cases h)
  | bool b => cases hc : getPoint kvs "center_point" <;> (rw [hn, hc] at h; cases h)
  | num q => cases hc : getPoint kvs "center_point" <;> (rw [hn, hc] at h; cases h)
  | arr xs => cases hc : getPoint kvs "center_point" <;> (rw [hn, hc] at h; cases h)
  | obj o => cases hc : getPoint kvs "center_point" <;> (rw [hn, hc] at h; cases h)

lemma validateWallEntries_reval (l : List JVal) :
    ∀ (i : Nat) (ws : List JVal), validateWallEntries i l = some ws →
      ∀ j : Nat, validateWallEntries j ws = some ws := by
  induction l with
  | nil =>
    intro i ws h j
    injection h with h
    rw [← h]
    rfl
  | cons e rest ih =>
    intro i ws h j
    cases e with
    | obj kvs =>
      simp only [validateWallEntries] at h
      cases hw : buildWall i kvs with
      | none => cases hv : validateWallEntries (i + 1) rest <;> (rw [hw, hv] at h; cases h)
      | some w =>
        cases hv : validateWallEntries (i + 1) rest with
        | none => rw [hw, hv] at h; cases h
        | some ws' =>
          rw [hw, hv] at h
          cases h
          obtain ⟨fs, rfl, hre⟩ := buildWall_reval i kvs w hw
          simp only [validateWallEntries]
          rw [hre j, ih (i + 1) ws' hv (j + 1)]
    | null => exact ih (i + 1) ws h j
    | bool b => exact ih (i + 1) ws h j
    | num q => exact ih (i + 1) ws h j
    | str s => exact ih (i + 1) ws h j
    | arr xs => exact ih (i + 1) ws h j

lemma validateRoomEntries_reval (l : List JVal) :
    ∀ rs : List JVal, validateRoomEntries l = some rs →
      validateRoomEntries rs = some rs := by
  induction l with
  | nil =>
    intro rs h
    injection h with h
    rw [← h]
    rfl
  | cons e rest ih =>
    intro rs h
    cases e with
    | obj kvs =>
      simp only [validateRoomEntries] at h
      cases hr : buildRoom kvs with
      | none => cases hv : validateRoomEntries rest <;> (rw [hr, hv] at h; cases h)
      | some r =>
        cases hv : validateRoomEntries rest with
        | none => rw [hr, hv] at h; cases h
        | some rs' =>
          rw [hr, hv] at h
          cases h
          obtain ⟨fs, rfl, hre⟩ := buildRoom_reval kvs r hr
          simp only [validateRoomEntries]
          rw [hre, ih rs' hv]
    | null => exact ih rs h
    | bool b => exact ih rs h
    | num q => exact ih rs h
    | str s => exact ih rs h
    | arr xs => exact ih rs h

/-- C6 (confirmed): validation is idempotent — feeding a validated
result back into the Validator returns an equal structure (same wall
identifiers, coordinates, room names, and order), and leaves it
unmutated (the final input state is the result's own field list). -/
theorem validator_idempotent :
    ∀ (d : JObj) (out : JVal) (st : JObj),
      validate_and_fix_structure d = some (out, st) →
        ∃ fs : JObj, out = .obj fs ∧ validate_and_fix_structure fs = some (out, fs) := by
  intro d out st h
  obtain ⟨⟨ws, rs, rfl, hws, hrs⟩, _⟩ := validate_some_parts d out st h
  refine ⟨[("walls", JVal.arr ws), ("rooms", JVal.arr rs)], rfl, ?_⟩
  have hws1 : validateWallEntries 1 ws = some ws := by
    apply validateWallEntries_reval _ 1 _ hws
  have hrs1 : validateRoomEntries rs = some rs := validateRoomEntries_reval _ _ hrs
  unfold validate_and_fix_structure
  have e1 : iterTop (getD (fixTopLevel
      [("walls", JVal.arr ws), ("rooms", JVal.arr rs)]) "walls" (.arr [])) = some ws := rfl
  have e2 : iterTop (getD (fixTopLevel
      [("walls", JVal.arr ws), ("rooms", JVal.arr rs)]) "rooms" (.arr [])) = some rs := rfl
  rw [e1]
  dsimp only
  rw [hws1]
  dsimp only
  rw [e2]
  dsimp only
  rw [hrs1]
  rfl

/-- Witness for C6: idempotence applied to the concrete successful run
on the empty object. -/
theorem validator_idempotent_witness :
    ∃ fs : JObj,
      JVal.obj [("walls", JVal.arr []), ("rooms", JVal.arr [])] = .obj fs
      ∧ validate_and_fix_structure fs
          = some (JVal.obj [("walls", JVal.arr []), ("rooms", JVal.arr [])], fs) :=
  validator_idempotent [] (JVal.obj [("walls", JVal.arr []), ("rooms", JVal.arr [])])
    [("walls", JVal.arr []), ("rooms", JVal.arr [])] rfl

/-! Embedding of `clean_json_response` (src/ai/ai_v3.py, lines 184-200):
two regex substitutions removing markdown code fences, a whitespace
strip, and a slice from the first opening to the last closing brace. -/

/-- The backtick character. -/
def tick : Char := Char.ofNat 96

/-- The opening brace character. -/
def lbrace : Char := Char.ofNat 123

/-- The closing brace character. -/
def rbrace : Char := Char.ofNat 125

/-- Three backticks, the fence delimiter. -/
def fence3 : List Char := [tick, tick, tick]

/-- A fence delimiter with the `json` language tag. -/
def fenceJson : List Char := fence3 ++ "json".data

/-- Literal-prefix matcher: the remainder of `l` after the literal
`pat`, if `pat` starts `l`. -/
def matchLit : List Char → List Char → Option (List Char)
  | [], l => some l
  | _ :: _, [] => none
  | p :: ps, c :: cs => if c = p then matchLit ps cs else none

/-- One match attempt of the regex alternative "backtick-fence with
`json` tag followed by greedy whitespace" at the current position. -/
def matchFenceA (l : List Char) : Option (List Char) :=
  match matchLit fenceJson l with
  | some r => some (r.dropWhile pySpaceChar)
  | none => none

/-- One match attempt of the regex alternative "greedy whitespace
followed by a backtick fence" at the current position (whitespace and
backtick are disjoint, so the greedy run needs no backtracking). -/
def matchFenceB (l : List Char) : Option (List Char) :=
  matchLit fence3 (l.dropWhile pySpaceChar)

/-- One match attempt of the second substitution's pattern "backtick
fence followed by greedy whitespace". -/
def matchFenceC (l : List Char) : Option (List Char) :=
  match matchLit fence3 l with
  | some r => some (r.dropWhile pySpaceChar)
  | none => none

/-- Left-to-right scan-and-delete for the first substitution
(alternative A preferred over B, as in the regex alternation); every
match consumes at least one character, so fuel = input length
suffices. -/
def subFA : Nat → List Char → List Char
  | 0, l => l
  | fuel + 1, l =>
    match matchFenceA l with
    | some r => subFA fuel r
    | none =>
      match matchFenceB l with
      | some r => subFA fuel r
      | none =>
        match l with
        | [] => []
        | c :: cs => c :: subFA fuel cs

/-- Left-to-right scan-and-delete for the second substitution. -/
def subFC : Nat → List Char → List Char
  | 0, l => l
  | fuel + 1, l =>
    match matchFenceC l with
    | some r => subFC fuel r
    | none =>
      match l with
      | [] => []
      | c :: cs => c :: subFC fuel cs

/-- Python `s.find(c)`: index of the first occurrence (`none` models
the sentinel -1). -/
def pyFind : List Char → Char → Option Nat
  | [], _ => none
  | a :: r, c => if a = c then some 0 else (pyFind r c).map (· + 1)

/-- Python `s.rfind(c)`: index of the last occurrence. -/
def pyRFind (l : List Char) (c : Char) : Option Nat :=
  match pyFind l.reverse c with
  | some k => some (l.length - 1 - k)
  | none => none

/-- The fence-removal and strip prefix of `clean_json_response`:
`re.sub` of the two fence patterns followed by `str.strip()`. -/
def fenceStrip (s : List Char) : List Char :=
  pyStripChars (subFC (subFA s.length s).length (subFA s.length s))

/-- Embedding of `clean_json_response`: after fence removal and
stripping, if both a first `\x7b` and a last `\x7d` exist, slice from
the former to the latter inclusive; otherwise return the cleaned text.
Total — the Python function cannot raise. -/
def clean_json_response (s : List Char) : List Char :=
  match pyFind (fenceStrip s) lbrace, pyRFind (fenceStrip s) rbrace with
  | some i, some j => ((fenceStrip s).drop i).take (j + 1 - i)
  | _, _ => fenceStrip s

lemma pyFind_append_first (pre rest : List Char) (c : Char) (h : ∀ a ∈ pre, a ≠ c) :
    pyFind (pre ++ c :: rest) c = some pre.length := by
  induction pre with
  | nil => simp [pyFind]
  | cons a t ih =>
    have ha : a ≠ c := h a (by simp)
    simp [pyFind, ha, ih fun x hx => h x (by simp [hx])]

lemma pyRFind_last (l post : List Char) (c : Char) (h : ∀ a ∈ post, a ≠ c) :
    pyRFind (l ++ c :: post) c = some l.length := by
  unfold pyRFind
  have hrev : (l ++ c :: post).reverse = post.reverse ++ c :: l.reverse := by
    simp
  rw [hrev, pyFind_append_first post.reverse l.reverse c
    fun a ha => h a (List.mem_reverse.mp ha)]
  dsimp only
  congr 1
  simp [List.length_append]

/-- C3 counterexample: the claim says the result is the slice of the
original input between its first `\x7b` (index 0) and last `\x7d`
(index 4); on an input whose brace span contains a code fence, the
fence is removed first, so the output differs from that slice of the
input. -/
def c3cexInput : List Char := "\x7b```\x7d".data

theorem normalizer_fence_cex :
    pyFind c3cexInput lbrace = some 0
    ∧ pyRFind c3cexInput rbrace = some 4
    ∧ clean_json_response c3cexInput = [lbrace, rbrace]
    ∧ clean_json_response c3cexInput ≠ (c3cexInput.drop 0).take (4 + 1 - 0) := by
  refine ⟨rfl, rfl, rfl, ?_⟩
  decide

/-- C3 (amended): the slice is taken of the fence-stripped, trimmed
text, not of the raw input — whenever that cleaned text decomposes as
`pre ++ \x7b ++ mid ++ \x7d ++ post` with no opening brace in `pre`
and no closing brace in `post` (i.e. it has a first `\x7b` before its
last `\x7d`), the Normalizer returns exactly `\x7b ++ mid ++ \x7d`;
when the cleaned text lacks an opening or a closing brace, the cleaned
text itself is returned; and the function is total, so it never
throws. -/
theorem normalizer_brace_extraction :
    (∀ s pre mid post : List Char,
        fenceStrip s = pre ++ lbrace :: (mid ++ rbrace :: post) →
        (∀ a ∈ pre, a ≠ lbrace) → (∀ a ∈ post, a ≠ rbrace) →
        clean_json_response s = lbrace :: (mid ++ [rbrace]))
    ∧ (∀ s : List Char,
        pyFind (fenceStrip s) lbrace = none ∨ pyRFind (fenceStrip s) rbrace = none →
        clean_json_response s = fenceStrip s) := by
  constructor
  · intro s pre mid post hdec hpre hpost
    have hf : pyFind (fenceStrip s) lbrace = some pre.length := by
      rw [hdec]
      exact pyFind_append_first pre _ lbrace hpre
    have hshift : pre ++ lbrace :: (mid ++ rbrace :: post)
        = (pre ++ lbrace :: mid) ++ rbrace :: post := by
      simp
    have hlen : (pre ++ lbrace :: mid).length = pre.length + 1 + mid.length := by
      simp [List.length_append]
      omega
    have hr : pyRFind (fenceStrip s) rbrace = some (pre.length + 1 + mid.length) := by
      rw [hdec, hshift, pyRFind_last (pre ++ lbrace :: mid) post rbrace hpost, hlen]
    unfold clean_json_response
    rw [hf, hr]
    dsimp only
    rw [hdec]
    rw [List.drop_left]
    have harith : pre.length + 1 + mid.length + 1 - pre.length = mid.length + 1 + 1 := by
      omega
    rw [harith, List.take_succ_cons]
    congr 1
    rw [List.take_append]
    simp
  · intro s h
    unfold clean_json_response
    rcases h with h | h
    · cases hr : pyRFind (fenceStrip s) rbrace <;> rw [h]
    · cases hf : pyFind (fenceStrip s) lbrace <;> rw [h]

/-- Witness for C3: a fence-free input decomposes around its braces and
the Normalizer returns the inclusive brace span. -/
theorem normalizer_brace_extraction_witness :
    clean_json_response "a\x7bb\x7dc".data = lbrace :: (['b'] ++ [rbrace]) :=
  normalizer_brace_extraction.1 "a\x7bb\x7dc".data ['a'] ['b'] ['c']
    (by decide) (by decide) (by decide)

/-! Embedding of `detect_close_parallel_walls` (src/ai/ai_v3.py, lines
304-341).  A validated wall dict is represented by its three fields.
The Python code computes the Euclidean midpoint distance
`d = sqrt(sq)` and compares `d < threshold`, storing `d` in the emitted
tuple; since `d` is non-negative, `d < t` holds exactly when
`0 ≤ t ∧ sq < t²` and `d = 0` exactly when `sq = 0`, so the embedding
carries the squared distance to stay within exact rational
arithmetic. -/

/-- A 2D point of a validated wall. -/
structure Pt where
  x : ℚ
  y : ℚ
deriving DecidableEq

/-- A validated wall record as consumed by the detector. -/
structure Wall where
  wall_id : String
  start_point : Pt
  end_point : Pt
deriving DecidableEq

/-- Exact test for `Real.sqrt sq < t` given `0 ≤ sq`, in rationals. -/
def sqrtLt (sq t : ℚ) : Bool :=
  decide (0 ≤ t) && decide (sq < t ^ 2)

/-- The nested pair loop of `detect_close_parallel_walls`: for each
`i < j`, if `abs(dx1*dy2 - dy1*dx2) < 1.0` and the midpoint distance is
below the threshold (Python default 10.0), append
`(wall_id_1, wall_id_2, distance)` — distance carried squared. -/
def detect_close_parallel_walls : List Wall → ℚ → List (String × String × ℚ)
  | [], _ => []
  | w1 :: rest, threshold =>
    (rest.filterMap fun w2 =>
      if |(w1.end_point.x - w1.start_point.x) * (w2.end_point.y - w2.start_point.y)
          - (w1.end_point.y - w1.start_point.y) * (w2.end_point.x - w2.start_point.x)| < 1 then
        if sqrtLt (((w1.start_point.x + w1.end_point.x) / 2
              - (w2.start_point.x + w2.end_point.x) / 2) ^ 2
            + ((w1.start_point.y + w1.end_point.y) / 2
              - (w2.start_point.y + w2.end_point.y) / 2) ^ 2) threshold = true then
          some (w1.wall_id, w2.wall_id,
            ((w1.start_point.x + w1.end_point.x) / 2
              - (w2.start_point.x + w2.end_point.x) / 2) ^ 2
            + ((w1.start_point.y + w1.end_point.y) / 2
              - (w2.start_point.y + w2.end_point.y) / 2) ^ 2)
        else none
      else none)
    ++ detect_close_parallel_walls rest threshold

/-- Direction vector `end - start` of a wall (spec vocabulary). -/
def dirVec (w : Wall) : Pt :=
  ⟨w.end_point.x - w.start_point.x, w.end_point.y - w.start_point.y⟩

/-- 2D cross product of two direction vectors (spec vocabulary). -/
def crossZ (d1 d2 : Pt) : ℚ :=
  d1.x * d2.y - d1.y * d2.x

/-- Midpoint of a wall (spec vocabulary). -/
def midPt (w : Wall) : Pt :=
  ⟨(w.start_point.x + w.end_point.x) / 2, (w.start_point.y + w.end_point.y) / 2⟩

/-- Squared Euclidean distance between two points (spec vocabulary). -/
def sqDist (p q : Pt) : ℚ :=
  (p.x - q.x) ^ 2 + (p.y - q.y) ^ 2

/-- The spec's emission test: near-parallel (absolute cross-product
threshold 1.0) and midpoint distance below the threshold. -/
def closeParallelPair (w1 w2 : Wall) (t : ℚ) : Bool :=
  decide (|crossZ (dirVec w1) (dirVec w2)| < 1)
    && sqrtLt (sqDist (midPt w1) (midPt w2)) t

/-- All unordered pairs of distinct positions, in the nested-loop
enumeration order (`i` before `j`, lexicographic). -/
def allPairs {α : Type} : List α → List (α × α)
  | [] => []
  | x :: xs => xs.map (fun y => (x, y)) ++ allPairs xs

/-- The detector output described pair-by-pair: one record per
enumerated pair passing the emission test, in enumeration order. -/
def specPairs (walls : List Wall) (t : ℚ) : List (String × String × ℚ) :=
  (allPairs walls).filterMap fun p =>
    if closeParallelPair p.1 p.2 t = true then
      some (p.1.wall_id, p.2.wall_id, sqDist (midPt p.1) (midPt p.2))
    else none

lemma emit_branch_eq (w1 w2 : Wall) (t : ℚ) :
    (if |(w1.end_point.x - w1.start_point.x) * (w2.end_point.y - w2.start_point.y)
        - (w1.end_point.y - w1.start_point.y) * (w2.end_point.x - w2.start_point.x)| < 1 then
      if sqrtLt (((w1.start_point.x + w1.end_point.x) / 2
            - (w2.start_point.x + w2.end_point.x) / 2) ^ 2
          + ((w1.start_point.y + w1.end_point.y) / 2
            - (w2.start_point.y + w2.end_point.y) / 2) ^ 2) t = true then
        some (w1.wall_id, w2.wall_id,
          ((w1.start_point.x + w1.end_point.x) / 2
            - (w2.start_point.x + w2.end_point.x) / 2) ^ 2
          + ((w1.start_point.y + w1.end_point.y) / 2
            - (w2.start_point.y + w2.end_point.y) / 2) ^ 2)
      else none
    else none)
    = if closeParallelPair w1 w2 t = true then
        some (w1.wall_id, w2.wall_id, sqDist (midPt w1) (midPt w2))
      else none := by
  show (if |crossZ (dirVec w1) (dirVec w2)| < 1 then
      if sqrtLt (sqDist (midPt w1) (midPt w2)) t = true then
        some (w1.wall_id, w2.wall_id, sqDist (midPt w1) (midPt w2))
      else none
    else none)
    = if closeParallelPair w1 w2 t = true then
        some (w1.wall_id, w2.wall_id, sqDist (midPt w1) (midPt w2))
      else none
  by_cases h1 : |crossZ (dirVec w1) (dirVec w2)| < 1
  · by_cases h2 : sqrtLt (sqDist (midPt w1) (midPt w2)) t = true
    · have hc : closeParallelPair w1 w2 t = true := by
        simp [closeParallelPair, h1, h2]
      rw [if_pos h1, if_pos h2, if_pos hc]
    · have hc : ¬ closeParallelPair w1 w2 t = true := by
        simp [closeParallelPair, h2]
      rw [if_pos h1, if_neg h2, if_neg hc]
  · have hc : ¬ closeParallelPair w1 w2 t = true := by
      simp [closeParallelPair, h1]
    rw [if_neg h1, if_neg hc]

/-- The nested-loop implementation emits exactly the pair-by-pair
description. -/
lemma detect_eq_specPairs (walls : List Wall) (t : ℚ) :
    detect_close_parallel_walls walls t = specPairs walls t := by
  induction walls with
  | nil => rfl
  | cons w1 rest ih =>
    unfold detect_close_parallel_walls specPairs allPairs
    rw [List.filterMap_append, List.filterMap_map]
    have hinner : ∀ w2 ∈ rest,
        (if |(w1.end_point.x - w1.start_point.x) * (w2.end_point.y - w2.start_point.y)
            - (w1.end_point.y - w1.start_point.y) * (w2.end_point.x - w2.start_point.x)| < 1 then
          if sqrtLt (((w1.start_point.x + w1.end_point.x) / 2
                - (w2.start_point.x + w2.end_point.x) / 2) ^ 2
              + ((w1.start_point.y + w1.end_point.y) / 2
                - (w2.start_point.y + w2.end_point.y) / 2) ^ 2) t = true then
            some (w1.wall_id, w2.wall_id,
              ((w1.start_point.x + w1.end_point.x) / 2
                - (w2.start_point.x + w2.end_point.x) / 2) ^ 2
              + ((w1.start_point.y + w1.end_point.y) / 2
                - (w2.start_point.y + w2.end_point.y) / 2) ^ 2)
          else none
        else none)
        = ((fun p : Wall × Wall =>
            if closeParallelPair p.1 p.2 t = true then
              some (p.1.wall_id, p.2.wall_id, sqDist (midPt p.1) (midPt p.2))
            else none) ∘ fun y => (w1, y)) w2 :=
      fun w2 _ => emit_branch_eq w1 w2 t
    rw [List.filterMap_congr hinner, ih]
    exact congrArg (_ ++ ·) (congrArg _ rfl)

/-- C7 (confirmed): the detector emits a record exactly for the
enumerated pairs whose direction-vector cross product has absolute
value below 1.0 and whose midpoint distance is below the threshold;
in particular two walls with identical endpoints are reported as a
close parallel pair at the default threshold 10.0 with distance 0. -/
theorem detector_emission_characterization :
    (∀ (walls : List Wall) (t : ℚ),
        detect_close_parallel_walls walls t = specPairs walls t)
    ∧ (∀ w1 w2 : Wall, w1.start_point = w2.start_point → w1.end_point = w2.end_point →
        detect_close_parallel_walls [w1, w2] 10 = [(w1.wall_id, w2.wall_id, 0)]) := by
  refine ⟨detect_eq_specPairs, ?_⟩
  intro w1 w2 h1 h2
  rw [detect_eq_specPairs]
  have hc0 : crossZ (dirVec w1) (dirVec w2) = 0 := by
    simp only [crossZ, dirVec]
    rw [h1, h2]
    ring
  have hsq0 : sqDist (midPt w1) (midPt w2) = 0 := by
    simp only [sqDist, midPt]
    rw [h1, h2]
    ring
  have hcross : closeParallelPair w1 w2 10 = true := by
    simp only [closeParallelPair, hc0, hsq0, sqrtLt]
    norm_num
  simp [specPairs, allPairs, hcross, hsq0]

/-- Witness for C7: two concrete walls with identical endpoints are
reported with squared distance 0. -/
theorem detector_emission_witness :
    detect_close_parallel_walls
      [⟨"wall_1", ⟨0, 0⟩, ⟨4, 2⟩⟩, ⟨"wall_2", ⟨0, 0⟩, ⟨4, 2⟩⟩] 10
      = [("wall_1", "wall_2", 0)] :=
  detector_emission_characterization.2 ⟨"wall_1", ⟨0, 0⟩, ⟨4, 2⟩⟩
    ⟨"wall_2", ⟨0, 0⟩, ⟨4, 2⟩⟩ rfl rfl

lemma allPairs_of_pairwise {α : Type} (R : α → α → Prop) (l : List α)
    (h : l.Pairwise R) : ∀ p ∈ allPairs l, R p.1 p.2 := by
  induction l with
  | nil => simp [allPairs]
  | cons x xs ih =>
    rw [List.pairwise_cons] at h
    intro p hp
    unfold allPairs at hp
    rw [List.mem_append] at hp
    rcases hp with hp | hp
    · obtain ⟨b, hb, rfl⟩ := List.mem_map.mp hp
      exact h.1 b hb
    · exact ih h.2 p hp

/-- C8 counterexample: the claim reads "no two direction vectors are
parallel" — for the two concrete walls below the directions (1, 0) and
(1, 1/2) are not parallel (their cross product is 1/2 ≠ 0), yet the
detector's absolute threshold `abs(cross) < 1.0` still classifies the
pair as parallel and reports it, so the output is not empty. -/
theorem detector_math_nonparallel_cex :
    crossZ (dirVec ⟨"a", ⟨0, 0⟩, ⟨1, 0⟩⟩) (dirVec ⟨"b", ⟨0, 1⟩, ⟨1, 3/2⟩⟩) ≠ 0
    ∧ detect_close_parallel_walls [⟨"a", ⟨0, 0⟩, ⟨1, 0⟩⟩, ⟨"b", ⟨0, 1⟩, ⟨1, 3/2⟩⟩] 10
        = [("a", "b", 25/16)] := by
  constructor
  · show ((1 : ℚ) - 0) * (3 / 2 - 1) - (0 - 0) * (1 - 0) ≠ 0
    norm_num
  · rw [detect_eq_specPairs]
    simp only [specPairs, allPairs, List.map_cons, List.map_nil, List.append_nil,
      List.nil_append, List.filterMap]
    have hcp : closeParallelPair ⟨"a", ⟨0, 0⟩, ⟨1, 0⟩⟩ ⟨"b", ⟨0, 1⟩, ⟨1, 3/2⟩⟩ 10 = true := by
      simp only [closeParallelPair, crossZ, dirVec, midPt, sqDist, sqrtLt]
      norm_num
      rw [abs_of_nonneg (by norm_num : (0 : ℚ) ≤ 1 / 2)]
      norm_num
    have hsq : sqDist (midPt (⟨"a", ⟨0, 0⟩, ⟨1, 0⟩⟩ : Wall))
        (midPt (⟨"b", ⟨0, 1⟩, ⟨1, 3/2⟩⟩ : Wall)) = 25/16 := by
      simp only [sqDist, midPt]
      norm_num
    simp [hcp, hsq]

/-- C8 (amended): for a wall list that is pairwise non-parallel in the
detector's sense — every two direction vectors have cross product of
absolute value at least 1.0, the detector's own parallelism cut-off —
the output is the empty sequence (for any threshold). -/
theorem detector_nonparallel_empty :
    ∀ (walls : List Wall) (t : ℚ),
      walls.Pairwise (fun a b => 1 ≤ |crossZ (dirVec a) (dirVec b)|) →
      detect_close_parallel_walls walls t = [] := by
  intro walls t h
  rw [detect_eq_specPairs]
  unfold specPairs
  rw [List.filterMap_eq_nil_iff]
  intro p hp
  have hR := allPairs_of_pairwise _ walls h p hp
  have hfalse : closeParallelPair p.1 p.2 t = false := by
    have hnot : ¬ (|crossZ (dirVec p.1) (dirVec p.2)| < 1) := not_lt.mpr hR
    simp [closeParallelPair, hnot]
  rw [hfalse]
  simp

/-- Witness for C8: a horizontal and a vertical unit wall have cross
product 1, so nothing is emitted. -/
theorem detector_nonparallel_witness :
    detect_close_parallel_walls
      [⟨"h", ⟨0, 0⟩, ⟨1, 0⟩⟩, ⟨"v", ⟨0, 0⟩, ⟨0, 1⟩⟩] 10 = [] :=
  detector_nonparallel_empty [⟨"h", ⟨0, 0⟩, ⟨1, 0⟩⟩, ⟨"v", ⟨0, 0⟩, ⟨0, 1⟩⟩] 10
    (by
      simp only [List.pairwise_cons, List.mem_singleton, List.not_mem_nil,
        List.Pairwise.nil, and_true]
      constructor
      · intro b hb
        rw [hb]
        show (1 : ℚ) ≤ |((1 : ℚ) - 0) * (1 - 0) - (0 - 0) * (0 - 0)|
        norm_num
      · intro b hb
        cases hb)

/-- C10 (confirmed): a zero-length wall has direction (0, 0), whose
cross product with any direction is 0, so the parallel test always
passes and the pair is reported exactly when the midpoint distance is
below the threshold, regardless of the other wall's direction. -/
theorem detector_zero_length_wall :
    ∀ (w1 w2 : Wall) (t : ℚ), w1.start_point = w1.end_point →
      crossZ (dirVec w1) (dirVec w2) = 0
      ∧ detect_close_parallel_walls [w1, w2] t
          = (if sqrtLt (sqDist (midPt w1) (midPt w2)) t = true then
              [(w1.wall_id, w2.wall_id, sqDist (midPt w1) (midPt w2))]
             else []) := by
  intro w1 w2 t h
  have hdir : dirVec w1 = ⟨0, 0⟩ := by
    unfold dirVec
    rw [← h]
    simp
  have hcross : crossZ (dirVec w1) (dirVec w2) = 0 := by
    rw [hdir]
    simp [crossZ]
  refine ⟨hcross, ?_⟩
  rw [detect_eq_specPairs]
  unfold specPairs allPairs
  by_cases hB : sqrtLt (sqDist (midPt w1) (midPt w2)) t = true
  · have hpair : closeParallelPair w1 w2 t = true := by
      simp [closeParallelPair, hcross, hB]
    simp [hpair, hB, allPairs]
  · have hpair : closeParallelPair w1 w2 t = false := by
      simp [closeParallelPair, hcross, hB]
    simp [hpair, hB, allPairs]

/-- Witness for C10: a concrete zero-length wall next to a slanted wall
within threshold distance. -/
theorem detector_zero_length_witness :
    crossZ (dirVec ⟨"z", ⟨1, 1⟩, ⟨1, 1⟩⟩) (dirVec ⟨"s", ⟨0, 0⟩, ⟨2, 3⟩⟩) = 0
    ∧ detect_close_parallel_walls [⟨"z", ⟨1, 1⟩, ⟨1, 1⟩⟩, ⟨"s", ⟨0, 0⟩, ⟨2, 3⟩⟩] 10
        = (if sqrtLt (sqDist (midPt ⟨"z", ⟨1, 1⟩, ⟨1, 1⟩⟩) (midPt ⟨"s", ⟨0, 0⟩, ⟨2, 3⟩⟩)) 10
              = true then
            [("z", "s",
              sqDist (midPt ⟨"z", ⟨1, 1⟩, ⟨1, 1⟩⟩) (midPt ⟨"s", ⟨0, 0⟩, ⟨2, 3⟩⟩))]
           else []) :=
  detector_zero_length_wall ⟨"z", ⟨1, 1⟩, ⟨1, 1⟩⟩ ⟨"s", ⟨0, 0⟩, ⟨2, 3⟩⟩ 10 rfl

/-! Embedding of the response-handling tail of `floorplan_png_to_json`
(src/ai/ai_v3.py, lines 145-172).  The key control-flow fact: line 149
reassigns `response_text = clean_json_response(response_text)` before
`json.loads`, so the `raw_response` recorded in the degraded model on a
`JSONDecodeError` is the normalized text, not the original.  The stdlib
parser `json.loads` is taken as a parameter `parse` (returning the
parsed value or the decode-error message), and the message of a generic
exception caught by the second handler as a parameter `excMsg`
(`str(e)` of whatever `validate_and_fix_structure` raised). -/

/-- String wrapper for the Normalizer. -/
def clean_json_response_str (s : String) : String :=
  ⟨clean_json_response s.data⟩

def floorplan_process (parse : String → Except String JVal) (excMsg : String)
    (response_text : String) : JVal :=
  match parse (clean_json_response_str response_text) with
  | .error e =>
    .obj [("walls", .arr []), ("rooms", .arr []),
          ("error", .str ("Failed to parse response: " ++ e)),
          ("raw_response", .str (clean_json_response_str response_text))]
  | .ok v =>
    match v with
    | .obj fields =>
      match validate_and_fix_structure fields with
      | some (out, _) => out
      | none =>
        .obj [("walls", .arr []), ("rooms", .arr []),
              ("error", .str ("API error: " ++ excMsg))]
    | _ =>
      .obj [("walls", .arr []), ("rooms", .arr []),
            ("error", .str ("API error: " ++ excMsg))]

/-- C2 counterexample: the claim says the original response text is
preserved verbatim in `raw_response`; for the response " x " (with
surrounding spaces, which any parse of the normalized "x" rejects) the
recorded `raw_response` is the normalized "x", not the original
" x ". -/
theorem orchestrator_raw_response_cex :
    clean_json_response_str " x " = "x"
    ∧ (∃ fields : JObj,
        floorplan_process (fun _ => Except.error "Expecting value") "" " x "
          = .obj fields
        ∧ pyLookup fields "raw_response" = some (.str "x"))
    ∧ ("x" : String) ≠ " x " := by
  refine ⟨rfl, ⟨_, rfl, rfl⟩, by decide⟩

/-- C2 (amended): whenever the normalized response fails to parse, the
Orchestrator does not raise: it returns a model with empty `walls` and
`rooms` sequences, a non-empty `error` string, and the *normalized*
response text in `raw_response` — which equals the original text
exactly when normalization leaves it unchanged (as for
"not json at all"). -/
theorem orchestrator_parse_failure_degraded :
    ∀ (parse : String → Except String JVal) (excMsg resp msg : String),
      parse (clean_json_response_str resp) = .error msg →
      ∃ fields : JObj,
        floorplan_process parse excMsg resp = .obj fields
        ∧ pyLookup fields "walls" = some (.arr [])
        ∧ pyLookup fields "rooms" = some (.arr [])
        ∧ (∃ e : String, pyLookup fields "error" = some (.str e) ∧ e ≠ "")
        ∧ pyLookup fields "raw_response" = some (.str (clean_json_response_str resp)) := by
  intro parse excMsg resp msg h
  unfold floorplan_process
  rw [h]
  refine ⟨_, rfl, rfl, rfl, ⟨_, rfl, ?_⟩, rfl⟩
  intro hcontra
  have hlen := congrArg String.length hcontra
  rw [String.length_append] at hlen
  have h26 : ("Failed to parse response: ").length = 26 := rfl
  have h0 : ("" : String).length = 0 := rfl
  rw [h26, h0] at hlen
  omega

/-- Witness for C2: the spec's own scenario — the unparseable response
"not json at all", which normalization leaves unchanged. -/
theorem orchestrator_parse_failure_witness :
    ∃ fields : JObj,
      floorplan_process (fun _ => Except.error "Expecting value") "" "not json at all"
        = .obj fields
      ∧ pyLookup fields "walls" = some (.arr [])
      ∧ pyLookup fields "rooms" = some (.arr [])
      ∧ (∃ e : String, pyLookup fields "error" = some (.str e) ∧ e ≠ "")
      ∧ pyLookup fields "raw_response"
          = some (.str (clean_json_response_str "not json at all")) :=
  orchestrator_parse_failure_degraded (fun _ => Except.error "Expecting value") ""
    "not json at all" "Expecting value" rfl

/-! Embedding of the reconstruction script src/genplan.py (lines
139-207): a Revit transaction is started, a base level and wall type
are resolved, one wall is created per JSON segment, and the transaction
is committed — or rolled back if any exception escapes the loop.  The
host document is modelled operationally: `committed` walls survive the
call, `pending` walls live only inside the open transaction. -/

/-- Python truthiness of a JSON-parsed value (`if not start or not end`
skips a segment whose `start`/`end` is missing — `.get` returns `None`
— or empty). -/
def pyFalsy : JVal → Bool
  | .null => true
  | .bool b => !b
  | .num q => decide (q = 0)
  | .str s => decide (s = "")
  | .arr xs => xs.isEmpty
  | .obj kvs => kvs.isEmpty

/-- Python `v[i]` on a JSON-parsed value: list and string indexing
succeed in range; indexing `None`/booleans/numbers raises `TypeError`,
and an integer key is never present in a string-keyed parsed dict
(`KeyError`). -/
def pyIndex : JVal → Nat → Option JVal
  | .arr xs, i =>
    match xs.get? i with
    | some v => some v
    | none => none
  | .str s, i =>
    match s.data.get? i with
    | some c => some (.str (String.singleton c))
    | none => none
  | _, _ => none

/-- The expression `float(start[i])`. -/
def pyIndexFloat (v : JVal) (i : Nat) : Option ℚ :=
  match pyIndex v i with
  | some e => pyFloat e
  | none => none

/-- Host document state: walls that survive the call versus walls
created inside the currently open transaction, plus the host's element
id counter. -/
structure RevitState where
  committed : List (JVal × Nat)
  pending : List (JVal × Nat)
  nextId : Nat

/-- The `Wall.Create` capability: a new wall element joins the open
transaction and receives the next element id; the script records
`(source id, element id)`. -/
def createWall (st : RevitState) (sid : JVal) : RevitState :=
  { committed := st.committed,
    pending := st.pending ++ [(sid, st.nextId)],
    nextId := st.nextId + 1 }

/-- One iteration of the per-wall loop (lines 148-194): `w.get` on a
non-dict entry raises; a falsy/missing `start` or `end` skips the
segment (`continue`); `float(start[0])` etc. may raise; failures of
`Line.CreateBound` / `Wall.Create` are abstracted by the `fails`
predicate on the two endpoints (e.g. Revit rejects zero-length bound
lines).  The best-effort height-parameter block swallows its own
exceptions and creates nothing, so it contributes no state change.
`none` models an exception escaping the iteration. -/
def processSeg (fails : (ℚ × ℚ) → (ℚ × ℚ) → Bool) (st : RevitState) :
    JVal → Option RevitState
  | .obj kvs =>
    if pyFalsy (getD kvs "start" .null) || pyFalsy (getD kvs "end" .null) then some st
    else
      match pyIndexFloat (getD kvs "start" .null) 0, pyIndexFloat (getD kvs "start" .null) 1,
          pyIndexFloat (getD kvs "end" .null) 0, pyIndexFloat (getD kvs "end" .null) 1 with
      | some x1, some y1, some x2, some y2 =>
        if fails (x1, y1) (x2, y2) then none
        else some (createWall st (getD kvs "id" (.str "wall")))
      | _, _, _, _ => none
  | _ => none

/-- The per-wall loop over `data.get("walls", [])`. -/
def runLoop (fails : (ℚ × ℚ) → (ℚ × ℚ) → Bool) :
    RevitState → List JVal → Option RevitState
  | st, [] => some st
  | st, w :: rest =>
    match processSeg fails st w with
    | some st' => runLoop fails st' rest
    | none => none

/-- `t.Commit()`: pending walls become part of the document. -/
def commitTx (st : RevitState) : RevitState :=
  { committed := st.committed ++ st.pending, pending := [], nextId := st.nextId }

/-- `t.RollBack()`: the document reverts to its pre-transaction state. -/
def rollbackTx (st0 : RevitState) : RevitState :=
  { committed := st0.committed, pending := [], nextId := st0.nextId }

/-- The whole guarded region (lines 139-207): `t.Start()`, level and
wall-type resolution (abstracted by `setupOk`; `pick_wall_type` raises
when the document has no wall type), the per-wall loop, then
`t.Commit()` on normal completion or `t.RollBack()` plus re-raise on
any exception.  Returns the final document state together with
`some created` (the `(source id, element id)` records in creation
order) on success, or `none` when the exception propagated. -/
def runScript (fails : (ℚ × ℚ) → (ℚ × ℚ) → Bool) (setupOk : Bool)
    (segs : List JVal) (st0 : RevitState) : RevitState × Option (List (JVal × Nat)) :=
  if setupOk then
    match runLoop fails { committed := st0.committed, pending := [], nextId := st0.nextId }
        segs with
    | some stEnd => (commitTx stEnd, some stEnd.pending)
    | none => (rollbackTx st0, none)
  else (rollbackTx st0, none)

lemma processSeg_frame (fails : (ℚ × ℚ) → (ℚ × ℚ) → Bool) (st : RevitState)
    (w : JVal) (st' : RevitState) (h : processSeg fails st w = some st') :
    st'.committed = st.committed ∧ ∃ newly, st'.pending = st.pending ++ newly := by
  cases w with
  | obj kvs =>
    unfold processSeg at h
    dsimp only at h
    by_cases hskip :
        (pyFalsy (getD kvs "start" .null) || pyFalsy (getD kvs "end" .null)) = true
    · rw [if_pos hskip] at h
      cases h
      exact ⟨rfl, [], by simp⟩
    · rw [if_neg hskip] at h
      cases h1 : pyIndexFloat (getD kvs "start" .null) 0 with
      | none =>
        cases h2 : pyIndexFloat (getD kvs "start" .null) 1 <;>
          cases h3 : pyIndexFloat (getD kvs "end" .null) 0 <;>
            cases h4 : pyIndexFloat (getD kvs "end" .null) 1 <;>
              (rw [h1, h2, h3, h4] at h; cases h)
      | some x1 =>
        cases h2 : pyIndexFloat (getD kvs "start" .null) 1 with
        | none =>
          cases h3 : pyIndexFloat (getD kvs "end" .null) 0 <;>
            cases h4 : pyIndexFloat (getD kvs "end" .null) 1 <;>
              (rw [h1, h2, h3, h4] at h; cases h)
        | some y1 =>
          cases h3 : pyIndexFloat (getD kvs "end" .null) 0 with
          | none =>
            cases h4 : pyIndexFloat (getD kvs "end" .null) 1 <;>
              (rw [h1, h2, h3, h4] at h; cases h)
          | some x2 =>
            cases h4 : pyIndexFloat (getD kvs "end" .null) 1 with
            | none => rw [h1, h2, h3, h4] at h; cases h
            | some y2 =>
              rw [h1, h2, h3, h4] at h
              dsimp only at h
              by_cases hf : fails (x1, y1) (x2, y2) = true
              · rw [if_pos hf] at h; cases h
              · rw [if_neg hf] at h
                cases h
                exact ⟨rfl, [(getD kvs "id" (.str "wall"), st.nextId)], rfl⟩
  | null => cases h
  | bool b => cases h
  | num q => cases h
  | str s => cases h
  | arr xs => cases h

lemma runLoop_frame (fails : (ℚ × ℚ) → (ℚ × ℚ) → Bool) (segs : List JVal) :
    ∀ st st' : RevitState, runLoop fails st segs = some st' →
      st'.committed = st.committed ∧ ∃ newly, st'.pending = st.pending ++ newly := by
  induction segs with
  | nil =>
    intro st st' h
    cases h
    exact ⟨rfl, [], by simp⟩
  | cons w rest ih =>
    intro st st' h
    unfold runLoop at h
    cases hp : processSeg fails st w with
    | none => rw [hp] at h; cases h
    | some st1 =>
      rw [hp] at h
      dsimp only at h
      obtain ⟨hc1, n1, hp1⟩ := processSeg_frame fails st w st1 hp
      obtain ⟨hc2, n2, hp2⟩ := ih st1 st' h
      refine ⟨hc2.trans hc1, n1 ++ n2, ?_⟩
      rw [hp2, hp1, List.append_assoc]

/-- C4 (confirmed): one reconstruction call is atomic — when an
exception escapes the per-wall loop (or setup), the final document has
exactly the pre-call committed walls and nothing pending (every wall
created in the call is rolled back) and the exception propagates
(`none` result); when the loop completes, the final document is the
pre-call walls plus all created walls, committed together; and a
segment whose `start` or `end` is missing/falsy is skipped without
raising, leaving the state untouched. -/
theorem reconstruction_transaction_atomic :
    ∀ (fails : (ℚ × ℚ) → (ℚ × ℚ) → Bool) (setupOk : Bool)
      (segs : List JVal) (st0 : RevitState),
      ((runScript fails setupOk segs st0).2 = none →
        (runScript fails setupOk segs st0).1.committed = st0.committed
        ∧ (runScript fails setupOk segs st0).1.pending = [])
      ∧ (∀ created, (runScript fails setupOk segs st0).2 = some created →
          (runScript fails setupOk segs st0).1.committed = st0.committed ++ created
          ∧ (runScript fails setupOk segs st0).1.pending = [])
      ∧ (∀ (st : RevitState) (kvs : JObj),
          pyFalsy (getD kvs "start" .null) = true ∨ pyFalsy (getD kvs "end" .null) = true →
          processSeg fails st (.obj kvs) = some st) := by
  intro fails setupOk segs st0
  refine ⟨?_, ?_, ?_⟩
  · intro hnone
    unfold runScript at hnone ⊢
    by_cases hs : setupOk = true
    · rw [if_pos hs] at hnone ⊢
      cases hl : runLoop fails
          { committed := st0.committed, pending := [], nextId := st0.nextId } segs with
      | none => exact ⟨rfl, rfl⟩
      | some stEnd =>
        rw [hl] at hnone
        dsimp only at hnone
        cases hnone
    · rw [if_neg hs]
      exact ⟨rfl, rfl⟩
  · intro created hsome
    unfold runScript at hsome ⊢
    by_cases hs : setupOk = true
    · rw [if_pos hs] at hsome ⊢
      cases hl : runLoop fails
          { committed := st0.committed, pending := [], nextId := st0.nextId } segs with
      | none =>
        rw [hl] at hsome
        dsimp only at hsome
        cases hsome
      | some stEnd =>
        rw [hl] at hsome
        dsimp only at hsome
        cases hsome
        obtain ⟨hc, newly, hp⟩ := runLoop_frame fails segs _ stEnd hl
        dsimp only at hc hp
        rw [List.nil_append] at hp
        exact ⟨by simp [commitTx, hc], rfl⟩
    · rw [if_neg hs] at hsome; cases hsome
  · intro st kvs h
    unfold processSeg
    dsimp only
    have hcond :
        (pyFalsy (getD kvs "start" .null) || pyFalsy (getD kvs "end" .null)) = true := by
      rcases h with h | h <;> simp [h]
    rw [if_pos hcond]

/-- Witness for C4: a host that never fails, one well-formed segment,
and an empty starting document — the segment's wall is committed; and a
segment with no `start` key is skipped without touching the state. -/
theorem reconstruction_transaction_witness :
    ((runScript (fun _ _ => false) true
        [JVal.obj [("id", JVal.str "w1"),
                   ("start", JVal.arr [JVal.num 0, JVal.num 0]),
                   ("end", JVal.arr [JVal.num 4, JVal.num 0])]]
        { committed := [], pending := [], nextId := 0 }).1.committed
      = [] ++ [(JVal.str "w1", 0)]
      ∧ (runScript (fun _ _ => false) true
          [JVal.obj [("id", JVal.str "w1"),
                     ("start", JVal.arr [JVal.num 0, JVal.num 0]),
                     ("end", JVal.arr [JVal.num 4, JVal.num 0])]]
          { committed := [], pending := [], nextId := 0 }).1.pending = [])
    ∧ processSeg (fun _ _ => false) { committed := [], pending := [], nextId := 0 }
        (.obj [("id", JVal.str "skipped")])
      = some { committed := [], pending := [], nextId := 0 } :=
  ⟨(reconstruction_transaction_atomic (fun _ _ => false) true
      [JVal.obj [("id", JVal.str "w1"),
                 ("start", JVal.arr [JVal.num 0, JVal.num 0]),
                 ("end", JVal.arr [JVal.num 4, JVal.num 0])]]
      { committed := [], pending := [], nextId := 0 }).2.1
      [(JVal.str "w1", 0)] rfl,
   (reconstruction_transaction_atomic (fun _ _ => false) true
      [JVal.obj [("id", JVal.str "w1"),
                 ("start", JVal.arr [JVal.num 0, JVal.num 0]),
                 ("end", JVal.arr [JVal.num 4, JVal.num 0])]]
      { committed := [], pending := [], nextId := 0 }).2.2
      { committed := [], pending := [], nextId := 0 }
      [("id", JVal.str "skipped")] (Or.inl rfl)⟩

end BimShady
